import Mathlib

/-!
Verification of the task-management analytics service
(`analytics-service/main.py`): a shallow embedding of its two pure
reducers (user statistics, productivity analysis) and of identifier
validation, together with theorems checking the specification's claims.

Conventions of the embedding:
* Mongo documents are `TaskRecord`s; a field that may be absent in the
  document (Python's `task.get(...)` returning `None`) is an `Option`.
* Python `datetime` values are modelled by `DateTime` (calendar date plus
  a second-of-day component); `strftime('%Y-%m-%d')` is `dateKey`.
* Python numbers are exact rationals; `round(x, 2)` is `round2`
  (round-half-to-even at two decimal places, Python's tie rule).
* Python dicts keyed by strings are association lists, which keeps the
  set and order of keys observable; `sorted(d.items())` is `sortPairs`.
* The database fetch is an abstract function passed to the endpoint
  wrappers; the ISO period-bound strings of the productivity response
  are produced by the external datetime library and are not part of any
  claim, so they are not modelled.
-/

/-- Round-half-to-even of a rational to an integer (Python's `round`). -/
def roundHalfEven (q : ℚ) : ℤ :=
  let f : ℤ := ⌊q⌋
  let r : ℚ := q - (f : ℚ)
  if r < 1/2 then f
  else if 1/2 < r then f + 1
  else if f % 2 = 0 then f else f + 1

/-- Python's `round(q, 2)`: round to two decimal places. -/
def round2 (q : ℚ) : ℚ := (roundHalfEven (q * 100) : ℚ) / 100

/-- A timestamp: calendar date plus time of day (seconds). Models Python
`datetime` as far as this service observes it: day-granularity bucketing
and order comparison. -/
structure DateTime where
  year : Nat
  month : Nat
  day : Nat
  secondOfDay : Nat
deriving DecidableEq, Repr

/-- Strict order on timestamps (Python `datetime` comparison `<`). -/
def dtLt (a b : DateTime) : Bool :=
  if a.year < b.year then true
  else if b.year < a.year then false
  else if a.month < b.month then true
  else if b.month < a.month then false
  else if a.day < b.day then true
  else if b.day < a.day then false
  else decide (a.secondOfDay < b.secondOfDay)

/-- A string of `n` zero characters. -/
def zeros : Nat → String
  | 0 => ""
  | n + 1 => "0" ++ zeros n

/-- Decimal rendering of `n`, left-padded with zeros to width `w`. -/
def padNum (w n : Nat) : String := zeros (w - (toString n).length) ++ toString n

/-- `strftime('%Y-%m-%d')`: the day-granularity date key of a timestamp. -/
def dateKey (d : DateTime) : String :=
  padNum 4 d.year ++ "-" ++ padNum 2 d.month ++ "-" ++ padNum 2 d.day

/-- A task document as this read-only service observes it. Fields the
document may lack are `Option`; `task.get(k)` yielding `None` is `none`. -/
structure TaskRecord where
  status : Option String
  priority : Option String
  createdAt : Option DateTime
  dueDate : Option DateTime
deriving DecidableEq, Repr

/-- The JSON body returned by `GET /api/analytics/user-stats/{user_id}`.
The two distributions are association lists so that the exact set and
order of keys in the Python dict literal stays observable. -/
structure StatsResult where
  success : Bool
  user_id : String
  total_tasks : Nat
  completed_tasks : Nat
  pending_tasks : Nat
  in_progress_tasks : Nat
  completion_rate : ℚ
  priority_distribution : List (String × Nat)
  status_distribution : List (String × Nat)
deriving DecidableEq, Repr

/-- The explicit all-zero response object returned by the empty-list
short-circuit in `get_user_statistics` (main.py lines 66-85). -/
def emptyStats (user_id : String) : StatsResult :=
  { success := true
    user_id := user_id
    total_tasks := 0
    completed_tasks := 0
    pending_tasks := 0
    in_progress_tasks := 0
    completion_rate := 0
    priority_distribution := [("Low", 0), ("Medium", 0), ("High", 0)]
    status_distribution := [("Todo", 0), ("In Progress", 0), ("Completed", 0)] }

/-- The general tally path of `get_user_statistics` (main.py lines
87-120): one pass of counts over the fetched task list. -/
def tallyStats (user_id : String) (tasks : List TaskRecord) : StatsResult :=
  let total_tasks := tasks.length
  let completed_tasks := tasks.countP (fun t => t.status == some "Completed")
  let in_progress_tasks := tasks.countP (fun t => t.status == some "In Progress")
  let pending_tasks := tasks.countP (fun t => t.status == some "Todo")
  { success := true
    user_id := user_id
    total_tasks := total_tasks
    completed_tasks := completed_tasks
    pending_tasks := pending_tasks
    in_progress_tasks := in_progress_tasks
    completion_rate :=
      if 0 < total_tasks then
        round2 ((completed_tasks : ℚ) / (total_tasks : ℚ) * 100)
      else 0
    priority_distribution :=
      [("Low", tasks.countP (fun t => t.priority == some "Low")),
       ("Medium", tasks.countP (fun t => t.priority == some "Medium")),
       ("High", tasks.countP (fun t => t.priority == some "High"))]
    status_distribution :=
      [("Todo", pending_tasks),
       ("In Progress", in_progress_tasks),
       ("Completed", completed_tasks)] }

/-- The Statistics Aggregator (`get_user_statistics`, main.py lines
52-120), as a pure function of the fetched task list: the empty list
short-circuits to the explicit all-zero object, otherwise the tally
runs. -/
def get_user_statistics (user_id : String) (tasks : List TaskRecord) : StatsResult :=
  if tasks.isEmpty then emptyStats user_id else tallyStats user_id tasks

/-- One step of the `daily_completions` dict accumulation (main.py line
159): `d[k] = d.get(k, 0) + 1`, preserving dict insertion order. -/
def bump (k : String) : List (String × Nat) → List (String × Nat)
  | [] => [(k, 1)]
  | (k', v) :: rest => if k' = k then (k', v + 1) :: rest else (k', v) :: bump k rest

/-- Body of the `for task in completed_tasks` loop (main.py lines
155-159): a completed task with a creation timestamp bumps its date
key, one without is skipped. -/
def dailyStep (m : List (String × Nat)) (t : TaskRecord) : List (String × Nat) :=
  match t.createdAt with
  | some d => bump (dateKey d) m
  | none => m

/-- Lexicographic code-point comparison of character lists (the order
Python's string `<` and `sorted` use), as a structurally recursive
Boolean so that it evaluates on concrete inputs. -/
def strLtBAux : List Char → List Char → Bool
  | [], [] => false
  | [], _ :: _ => true
  | _ :: _, [] => false
  | a :: as, b :: bs =>
    if a < b then true
    else if b < a then false
    else strLtBAux as bs

/-- Boolean string comparison; proven equivalent to `<` on `String` in
`strLtB_iff` below. -/
def strLtB (s t : String) : Bool := strLtBAux s.data t.data

/-- Insert a pair into a list sorted ascending by the string key. -/
def insertPair (p : String × Nat) : List (String × Nat) → List (String × Nat)
  | [] => [p]
  | q :: rest => if strLtB p.1 q.1 then p :: q :: rest else q :: insertPair p rest

/-- Python's `sorted(d.items())` on a string-keyed dict: sort the pairs
ascending by key (keys are distinct, so key order decides). -/
def sortPairs : List (String × Nat) → List (String × Nat)
  | [] => []
  | p :: rest => insertPair p (sortPairs rest)

/-- The count stored in a string-keyed dict, 0 when the key is absent
(Python's `d.get(k, 0)`). -/
def lookupCount : List (String × Nat) → String → Nat
  | [], _ => 0
  | (k', v) :: rest, k => if k' = k then v else lookupCount rest k

/-- The JSON body returned by `GET /api/analytics/productivity/{user_id}`.
The ISO `start_date`/`end_date` strings are rendered by the external
datetime library and are not modelled. -/
structure ProdResult where
  success : Bool
  user_id : String
  period_days : ℤ
  total_tasks_created : Nat
  total_tasks_completed : Nat
  overdue_tasks : Nat
  avg_tasks_per_day : ℚ
  avg_completions_per_day : ℚ
  daily_completion_trend : List (String × Nat)
  productivity_score : ℚ
deriving DecidableEq, Repr

/-- The Productivity Analyzer (`get_productivity_analysis`, main.py lines
128-191) as a pure function of the date-windowed task list fetched for
the user, the `days` query parameter and the current instant `now`. -/
def get_productivity_analysis (user_id : String) (days : ℤ) (now : DateTime)
    (tasks : List TaskRecord) : ProdResult :=
  let completed_tasks := tasks.filter (fun t => t.status == some "Completed")
  let daily_completions := completed_tasks.foldl dailyStep []
  let total_created := tasks.length
  let total_completed := completed_tasks.length
  { success := true
    user_id := user_id
    period_days := days
    total_tasks_created := total_created
    total_tasks_completed := total_completed
    overdue_tasks := tasks.countP (fun t =>
      !(t.status == some "Completed") && t.dueDate.any (fun d => dtLt d now))
    avg_tasks_per_day :=
      if 0 < days then round2 ((total_created : ℚ) / (days : ℚ)) else 0
    avg_completions_per_day :=
      if 0 < days then round2 ((total_completed : ℚ) / (days : ℚ)) else 0
    daily_completion_trend := sortPairs daily_completions
    productivity_score :=
      if 0 < total_created then
        round2 ((total_completed : ℚ) / (total_created : ℚ) * 100)
      else 0 }

/-- The error raised through FastAPI's `HTTPException`. -/
structure HTTPError where
  status_code : Nat
  detail : String
deriving DecidableEq, Repr

/-- Whether a character is a hexadecimal digit. -/
def isHexChar (c : Char) : Bool :=
  (decide ('0' ≤ c) && decide (c ≤ '9')) ||
  (decide ('a' ≤ c) && decide (c ≤ 'f')) ||
  (decide ('A' ≤ c) && decide (c ≤ 'F'))

/-- `bson.ObjectId(s)` succeeds on a string exactly when it is a
24-character hexadecimal string. -/
def isValidObjectId (s : String) : Bool :=
  s.length == 24 && s.toList.all isHexChar

/-- `validate_object_id` (main.py lines 37-41): a malformed identifier
raises a 400 `HTTPException` before anything else happens. -/
def validate_object_id (s : String) : Except HTTPError String :=
  if isValidObjectId s then Except.ok s
  else Except.error ⟨400, "Invalid user ID format"⟩

/-- The user-stats endpoint (main.py lines 52-64 around the reducer):
validate the identifier, then fetch the user's tasks and aggregate.
`fetch` stands for the database query. -/
def user_stats_endpoint (fetch : String → List TaskRecord)
    (user_id : String) : Except HTTPError StatsResult :=
  match validate_object_id user_id with
  | Except.error e => Except.error e
  | Except.ok oid => Except.ok (get_user_statistics user_id (fetch oid))

/-- The productivity endpoint (main.py lines 128-148 around the reducer):
validate the identifier, then fetch the user's date-windowed tasks and
analyze. `fetch` stands for the windowed database query. -/
def productivity_endpoint (fetch : String → List TaskRecord)
    (user_id : String) (days : ℤ) (now : DateTime) : Except HTTPError ProdResult :=
  match validate_object_id user_id with
  | Except.error e => Except.error e
  | Except.ok oid => Except.ok (get_productivity_analysis user_id days now (fetch oid))

example : dateKey ⟨2024, 3, 7, 0⟩ = "2024-03-07" := by decide

/-- The overdue test as the specification words it: not completed, a due
timestamp is set, and the due timestamp is strictly before now. -/
def isOverdueSpec (now : DateTime) (t : TaskRecord) : Bool :=
  match t.dueDate with
  | none => false
  | some d => if t.status == some "Completed" then false else dtLt d now

/-- The tally on the empty list produces exactly the short-circuit
object. -/
theorem tallyStats_nil (u : String) : tallyStats u [] = emptyStats u := rfl

/-- The aggregator always agrees with the tally path (the empty-list
short-circuit is equivalent to tallying nothing). -/
theorem get_user_statistics_eq_tally (u : String) (tasks : List TaskRecord) :
    get_user_statistics u tasks = tallyStats u tasks := by
  cases tasks with
  | nil => exact (tallyStats_nil u).symm
  | cons t ts => rfl

/-- A task's status matches at most one of the three recognized status
strings. -/
theorem statusIndicator_le (o : Option String) :
    (if o == some "Completed" then 1 else 0) + (if o == some "Todo" then 1 else 0) +
      (if o == some "In Progress" then 1 else 0) ≤ 1 := by
  match o with
  | none => simp
  | some s =>
    by_cases h1 : s = "Completed" <;> by_cases h2 : s = "Todo" <;>
      by_cases h3 : s = "In Progress" <;> simp_all

/-- C1: for every non-empty list of task records the Statistics
Aggregator's completion rate is `round(completed/total*100, 2)`, and for
the empty list (total = 0) it is exactly 0; the function is total, so no
error, NaN or null can arise. -/
theorem completion_rate_spec (u : String) (tasks : List TaskRecord) :
    (get_user_statistics u tasks).completion_rate =
      if 0 < tasks.length then
        round2 ((tasks.countP (fun t => t.status == some "Completed") : ℚ) /
          (tasks.length : ℚ) * 100)
      else 0 := by
  rw [get_user_statistics_eq_tally]
  rfl

/-- C2: on the empty list the aggregator returns the fixed all-zero
object: every count is 0, the rate is 0, both distributions carry all
six keys with value 0, and this short-circuit result coincides with what
the general tally path produces on empty input. -/
theorem empty_input_shape (u : String) :
    get_user_statistics u [] = emptyStats u ∧
    tallyStats u [] = emptyStats u ∧
    (emptyStats u).total_tasks = 0 ∧
    (emptyStats u).completed_tasks = 0 ∧
    (emptyStats u).pending_tasks = 0 ∧
    (emptyStats u).in_progress_tasks = 0 ∧
    (emptyStats u).completion_rate = 0 ∧
    (emptyStats u).priority_distribution = [("Low", 0), ("Medium", 0), ("High", 0)] ∧
    (emptyStats u).status_distribution = [("Todo", 0), ("In Progress", 0), ("Completed", 0)] :=
  ⟨rfl, rfl, rfl, rfl, rfl, rfl, rfl, rfl, rfl⟩

/-- The three status counts sum to at most the list length. -/
theorem status_counts_le (tasks : List TaskRecord) :
    tasks.countP (fun t => t.status == some "Completed") +
      tasks.countP (fun t => t.status == some "Todo") +
      tasks.countP (fun t => t.status == some "In Progress") ≤ tasks.length := by
  induction tasks with
  | nil => simp
  | cons t ts ih =>
    simp only [List.countP_cons, List.length_cons]
    have h := statusIndicator_le t.status
    omega

/-- A recognized priority matches exactly one of the three priority
strings. -/
theorem priorityIndicator_eq (o : Option String)
    (h : o = some "Low" ∨ o = some "Medium" ∨ o = some "High") :
    (if o == some "Low" then 1 else 0) + (if o == some "Medium" then 1 else 0) +
      (if o == some "High" then 1 else 0) = 1 := by
  rcases h with h | h | h <;> subst h <;> simp

/-- C3: for every record list, completed + pending + in-progress is at
most the total, and when every record's priority is one of Low, Medium,
High the three priority-distribution counts sum to exactly the total. -/
theorem counts_invariant (u : String) (tasks : List TaskRecord) :
    (get_user_statistics u tasks).completed_tasks +
        (get_user_statistics u tasks).pending_tasks +
        (get_user_statistics u tasks).in_progress_tasks ≤
      (get_user_statistics u tasks).total_tasks ∧
    ((∀ t ∈ tasks, t.priority = some "Low" ∨ t.priority = some "Medium" ∨
        t.priority = some "High") →
      ((get_user_statistics u tasks).priority_distribution.map Prod.snd).sum =
        (get_user_statistics u tasks).total_tasks) := by
  rw [get_user_statistics_eq_tally]
  constructor
  · simpa [tallyStats] using status_counts_le tasks
  · intro hall
    simp only [tallyStats, List.map, List.sum_cons, List.sum_nil]
    induction tasks with
    | nil => simp
    | cons t ts ih =>
      simp only [List.countP_cons, List.length_cons]
      have h1 := priorityIndicator_eq t.priority (hall t (by simp))
      have h2 := ih (fun x hx => hall x (by simp [hx]))
      omega

/-- C3 witness: the invariant applied to a concrete two-record list with
recognized priorities. -/
theorem counts_invariant_witness :
    (get_user_statistics "u"
        [⟨some "Completed", some "Low", none, none⟩,
         ⟨some "Todo", some "High", none, none⟩]).completed_tasks +
      (get_user_statistics "u"
        [⟨some "Completed", some "Low", none, none⟩,
         ⟨some "Todo", some "High", none, none⟩]).pending_tasks +
      (get_user_statistics "u"
        [⟨some "Completed", some "Low", none, none⟩,
         ⟨some "Todo", some "High", none, none⟩]).in_progress_tasks ≤
      (get_user_statistics "u"
        [⟨some "Completed", some "Low", none, none⟩,
         ⟨some "Todo", some "High", none, none⟩]).total_tasks ∧
    ((get_user_statistics "u"
        [⟨some "Completed", some "Low", none, none⟩,
         ⟨some "Todo", some "High", none, none⟩]).priority_distribution.map Prod.snd).sum =
      (get_user_statistics "u"
        [⟨some "Completed", some "Low", none, none⟩,
         ⟨some "Todo", some "High", none, none⟩]).total_tasks :=
  ⟨(counts_invariant "u" _).1, (counts_invariant "u" _).2 (by decide)⟩

/-- C5: the productivity score is `round(completed/created*100, 2)` and
is 0 when the created count (the windowed list's length) is 0. -/
theorem productivity_score_spec (u : String) (days : ℤ) (now : DateTime)
    (tasks : List TaskRecord) :
    (get_productivity_analysis u days now tasks).productivity_score =
      if 0 < tasks.length then
        round2 (((tasks.filter (fun t => t.status == some "Completed")).length : ℚ) /
          (tasks.length : ℚ) * 100)
      else 0 := rfl

/-- The analyzer's overdue predicate agrees pointwise with the
specification's wording of it. -/
theorem overdue_pred_eq (now : DateTime) (t : TaskRecord) :
    (!(t.status == some "Completed") && t.dueDate.any (fun d => dtLt d now)) =
      isOverdueSpec now t := by
  unfold isOverdueSpec
  cases t.dueDate <;> cases hb : t.status == some "Completed" <;> simp [hb, Option.any]

/-- C6: the overdue count equals the number of records of the windowed
input that are not Completed, have a due timestamp, and whose due
timestamp is strictly before `now`; the analyzer sees only the windowed
list, so no record outside it can be counted. -/
theorem overdue_count_spec (u : String) (days : ℤ) (now : DateTime)
    (tasks : List TaskRecord) :
    (get_productivity_analysis u days now tasks).overdue_tasks =
      (tasks.filter (isOverdueSpec now)).length := by
  simp only [get_productivity_analysis]
  rw [show (fun t => !(t.status == some "Completed") &&
      t.dueDate.any (fun d => dtLt d now)) = isOverdueSpec now from
    funext fun t => overdue_pred_eq now t]
  exact List.countP_eq_length_filter _ _

/-- C7: each per-day average is the corresponding count divided by
`days` rounded to two decimals when `days > 0`, and is 0 when
`days ≤ 0`; the function is total, so no division error can arise. -/
theorem averages_spec (u : String) (days : ℤ) (now : DateTime)
    (tasks : List TaskRecord) :
    ((get_productivity_analysis u days now tasks).avg_tasks_per_day =
        if 0 < days then round2 ((tasks.length : ℚ) / (days : ℚ)) else 0) ∧
    ((get_productivity_analysis u days now tasks).avg_completions_per_day =
        if 0 < days then
          round2 (((tasks.filter (fun t => t.status == some "Completed")).length : ℚ) /
            (days : ℚ))
        else 0) :=
  ⟨rfl, rfl⟩

/-- C8: a string that is not a 24-character hex ObjectId makes both
endpoints fail with the 400 `Invalid user ID format` error, and the
outcome is the same for every fetch function — so no fetch result is
ever consulted; a well-formed identifier passes validation and the
endpoint returns the reduction of whatever the fetch yields. -/
theorem object_id_validation_spec (s : String) :
    (isValidObjectId s = false →
      ∀ (fetchA fetchB : String → List TaskRecord) (days : ℤ) (now : DateTime),
        user_stats_endpoint fetchA s = Except.error ⟨400, "Invalid user ID format"⟩ ∧
        productivity_endpoint fetchA s days now =
          Except.error ⟨400, "Invalid user ID format"⟩ ∧
        user_stats_endpoint fetchA s = user_stats_endpoint fetchB s ∧
        productivity_endpoint fetchA s days now = productivity_endpoint fetchB s days now) ∧
    (isValidObjectId s = true →
      ∀ (fetch : String → List TaskRecord) (days : ℤ) (now : DateTime),
        user_stats_endpoint fetch s = Except.ok (get_user_statistics s (fetch s)) ∧
        productivity_endpoint fetch s days now =
          Except.ok (get_productivity_analysis s days now (fetch s))) := by
  constructor
  · intro h fetchA fetchB days now
    refine ⟨?_, ?_, ?_, ?_⟩ <;>
      simp [user_stats_endpoint, productivity_endpoint, validate_object_id, h]
  · intro h fetch days now
    exact ⟨by simp [user_stats_endpoint, validate_object_id, h],
           by simp [productivity_endpoint, validate_object_id, h]⟩

/-- C8 witness: the malformed identifier `not-an-id` is rejected with
the 400 error on both endpoints, and a well-formed 24-hex identifier
reaches the reducer. -/
theorem object_id_validation_witness :
    (user_stats_endpoint (fun _ => []) "not-an-id" =
      Except.error ⟨400, "Invalid user ID format"⟩) ∧
    (productivity_endpoint (fun _ => []) "not-an-id" 30 ⟨2024, 1, 1, 0⟩ =
      Except.error ⟨400, "Invalid user ID format"⟩) ∧
    (user_stats_endpoint (fun _ => []) "507f1f77bcf86cd799439011" =
      Except.ok (get_user_statistics "507f1f77bcf86cd799439011" [])) :=
  ⟨((object_id_validation_spec "not-an-id").1 (by decide) (fun _ => []) (fun _ => [])
      30 ⟨2024, 1, 1, 0⟩).1,
   ((object_id_validation_spec "not-an-id").1 (by decide) (fun _ => []) (fun _ => [])
      30 ⟨2024, 1, 1, 0⟩).2.1,
   ((object_id_validation_spec "507f1f77bcf86cd799439011").2 (by decide) (fun _ => [])
      30 ⟨2024, 1, 1, 0⟩).1⟩

/-- C9: a record with an unrecognized or missing status still raises the
total by one but leaves every status bucket unchanged, and a record with
an unrecognized or missing priority still raises the total by one but
leaves every priority bucket unchanged; the aggregator is total, so no
error is raised. -/
theorem unrecognized_values_spec (u : String) (t : TaskRecord) (ts : List TaskRecord) :
    (t.status ∉ [some "Todo", some "In Progress", some "Completed"] →
      (get_user_statistics u (t :: ts)).total_tasks =
          (get_user_statistics u ts).total_tasks + 1 ∧
      (get_user_statistics u (t :: ts)).completed_tasks =
          (get_user_statistics u ts).completed_tasks ∧
      (get_user_statistics u (t :: ts)).pending_tasks =
          (get_user_statistics u ts).pending_tasks ∧
      (get_user_statistics u (t :: ts)).in_progress_tasks =
          (get_user_statistics u ts).in_progress_tasks ∧
      (get_user_statistics u (t :: ts)).status_distribution.map Prod.snd =
          (get_user_statistics u ts).status_distribution.map Prod.snd) ∧
    (t.priority ∉ [some "Low", some "Medium", some "High"] →
      (get_user_statistics u (t :: ts)).total_tasks =
          (get_user_statistics u ts).total_tasks + 1 ∧
      (get_user_statistics u (t :: ts)).priority_distribution.map Prod.snd =
          (get_user_statistics u ts).priority_distribution.map Prod.snd) := by
  rw [get_user_statistics_eq_tally, get_user_statistics_eq_tally]
  constructor
  · intro h
    simp only [List.mem_cons, List.mem_singleton, not_or] at h
    obtain ⟨h1, h2, h3⟩ := h
    refine ⟨by simp [tallyStats], ?_, ?_, ?_, ?_⟩ <;>
      simp [tallyStats, List.countP_cons, h1, h2, h3]
  · intro h
    simp only [List.mem_cons, List.mem_singleton, not_or] at h
    obtain ⟨h1, h2, h3⟩ := h
    refine ⟨by simp [tallyStats], ?_⟩
    simp [tallyStats, List.countP_cons, h1, h2, h3]

/-- C9 witness: a record with status `Weird` and no priority adds to the
total of a singleton list but to none of the buckets. -/
theorem unrecognized_values_witness :
    ((get_user_statistics "u"
        [⟨some "Weird", none, none, none⟩,
         ⟨some "Completed", some "Low", none, none⟩]).total_tasks =
      (get_user_statistics "u" [⟨some "Completed", some "Low", none, none⟩]).total_tasks + 1) ∧
    ((get_user_statistics "u"
        [⟨some "Weird", none, none, none⟩,
         ⟨some "Completed", some "Low", none, none⟩]).status_distribution.map Prod.snd =
      (get_user_statistics "u"
        [⟨some "Completed", some "Low", none, none⟩]).status_distribution.map Prod.snd) ∧
    ((get_user_statistics "u"
        [⟨some "Weird", none, none, none⟩,
         ⟨some "Completed", some "Low", none, none⟩]).priority_distribution.map Prod.snd =
      (get_user_statistics "u"
        [⟨some "Completed", some "Low", none, none⟩]).priority_distribution.map Prod.snd) :=
  ⟨((unrecognized_values_spec "u" ⟨some "Weird", none, none, none⟩
      [⟨some "Completed", some "Low", none, none⟩]).1 (by decide)).1,
   ((unrecognized_values_spec "u" ⟨some "Weird", none, none, none⟩
      [⟨some "Completed", some "Low", none, none⟩]).1 (by decide)).2.2.2.2,
   ((unrecognized_values_spec "u" ⟨some "Weird", none, none, none⟩
      [⟨some "Completed", some "Low", none, none⟩]).2 (by decide)).2⟩

/-- The Boolean comparison on character lists agrees with `<`. -/
theorem strLtBAux_iff (a b : List Char) : strLtBAux a b = true ↔ a < b := by
  induction a generalizing b with
  | nil =>
    cases b with
    | nil =>
      simp only [strLtBAux, Bool.false_eq_true, false_iff]
      exact fun h => nomatch h
    | cons x xs =>
      simp only [strLtBAux, true_iff]
      exact List.Lex.nil
  | cons c cs ih =>
    cases b with
    | nil =>
      simp only [strLtBAux, Bool.false_eq_true, false_iff]
      exact fun h => nomatch h
    | cons x xs =>
      simp only [strLtBAux]
      by_cases h1 : c < x
      · rw [if_pos h1]
        simp only [true_iff]
        exact List.Lex.rel h1
      · rw [if_neg h1]
        by_cases h2 : x < c
        · rw [if_pos h2]
          simp only [Bool.false_eq_true, false_iff]
          intro h
          cases h with
          | cons ht => exact lt_irrefl _ h2
          | rel hr => exact h1 hr
        · have hcx : c = x := le_antisymm (le_of_not_lt h2) (le_of_not_lt h1)
          subst hcx
          rw [if_neg h2, ih xs]
          constructor
          · exact fun h => List.Lex.cons h
          · intro h
            cases h with
            | cons ht => exact ht
            | rel hr => exact absurd hr h1

/-- The Boolean comparison on strings agrees with `<` on `String`. -/
theorem strLtB_iff (s t : String) : strLtB s t = true ↔ s < t := by
  rw [String.lt_iff_toList_lt]
  exact strLtBAux_iff s.data t.data

/-- Inserting into a list is a permutation of prepending. -/
theorem insertPair_perm (p : String × Nat) (l : List (String × Nat)) :
    (insertPair p l).Perm (p :: l) := by
  induction l with
  | nil => simp [insertPair]
  | cons q rest ih =>
    simp only [insertPair]
    by_cases h : strLtB p.1 q.1 = true
    · rw [if_pos h]
    · rw [if_neg h]
      exact (ih.cons q).trans (List.Perm.swap p q rest)

/-- Sorting is a permutation of the input. -/
theorem sortPairs_perm (l : List (String × Nat)) : (sortPairs l).Perm l := by
  induction l with
  | nil => simp [sortPairs]
  | cons p rest ih => exact (insertPair_perm p (sortPairs rest)).trans (ih.cons p)

/-- Insertion preserves weak sortedness by key. -/
theorem insertPair_pairwise_le (p : String × Nat) (l : List (String × Nat))
    (h : l.Pairwise (fun a b => a.1 ≤ b.1)) :
    (insertPair p l).Pairwise (fun a b => a.1 ≤ b.1) := by
  induction l with
  | nil => simp [insertPair]
  | cons q rest ih =>
    rw [List.pairwise_cons] at h
    simp only [insertPair]
    by_cases hpq : strLtB p.1 q.1 = true
    · rw [if_pos hpq]
      have hpq' : p.1 < q.1 := (strLtB_iff _ _).mp hpq
      refine List.Pairwise.cons ?_ (List.Pairwise.cons h.1 h.2)
      intro b hb
      rcases List.mem_cons.mp hb with rfl | hb'
      · exact le_of_lt hpq'
      · exact le_of_lt (lt_of_lt_of_le hpq' (h.1 b hb'))
    · rw [if_neg hpq]
      have hqp : q.1 ≤ p.1 :=
        le_of_not_lt (fun hlt => hpq ((strLtB_iff _ _).mpr hlt))
      refine List.Pairwise.cons ?_ (ih h.2)
      intro b hb
      rcases List.mem_cons.mp ((insertPair_perm p rest).mem_iff.mp hb) with rfl | hb'
      · exact hqp
      · exact h.1 b hb'

/-- The sorted output is weakly ascending by key. -/
theorem sortPairs_pairwise_le (l : List (String × Nat)) :
    (sortPairs l).Pairwise (fun a b => a.1 ≤ b.1) := by
  induction l with
  | nil => simp [sortPairs]
  | cons p rest ih => exact insertPair_pairwise_le p _ ih

/-- A key is in a bumped dict exactly if it was bumped or already there. -/
theorem mem_keys_bump (k x : String) (m : List (String × Nat)) :
    x ∈ (bump k m).map Prod.fst ↔ x = k ∨ x ∈ m.map Prod.fst := by
  induction m with
  | nil => simp [bump]
  | cons q rest ih =>
    obtain ⟨k', v⟩ := q
    by_cases h : k' = k
    · subst h
      simp only [bump, if_true, List.map_cons, List.mem_cons]
      tauto
    · simp only [bump]
      rw [if_neg h]
      simp only [List.map_cons, List.mem_cons, ih]
      tauto

/-- Bumping preserves distinctness of the dict's keys. -/
theorem keys_nodup_bump (k : String) (m : List (String × Nat))
    (h : (m.map Prod.fst).Nodup) : ((bump k m).map Prod.fst).Nodup := by
  induction m with
  | nil => simp [bump]
  | cons q rest ih =>
    obtain ⟨k', v⟩ := q
    simp only [List.map_cons, List.nodup_cons] at h
    simp only [bump]
    by_cases hk : k' = k
    · rw [if_pos hk]
      simp only [List.map_cons, List.nodup_cons]
      exact ⟨h.1, h.2⟩
    · rw [if_neg hk]
      simp only [List.map_cons, List.nodup_cons]
      refine ⟨?_, ih h.2⟩
      intro hmem
      rcases (mem_keys_bump k k' rest).mp hmem with rfl | hmem'
      · exact hk rfl
      · exact h.1 hmem'

/-- Bumping preserves positivity of all stored counts. -/
theorem values_pos_bump (k : String) (m : List (String × Nat))
    (h : ∀ p ∈ m, 1 ≤ p.2) : ∀ p ∈ bump k m, 1 ≤ p.2 := by
  induction m with
  | nil =>
    intro p hp
    simp only [bump, List.mem_singleton] at hp
    subst hp
    exact le_refl 1
  | cons q rest ih =>
    obtain ⟨k', v⟩ := q
    intro p hp
    simp only [bump] at hp
    by_cases hk : k' = k
    · rw [if_pos hk] at hp
      rcases List.mem_cons.mp hp with rfl | hp'
      · simp
      · exact h p (List.mem_cons_of_mem _ hp')
    · rw [if_neg hk] at hp
      rcases List.mem_cons.mp hp with rfl | hp'
      · exact h (k', v) (List.mem_cons_self _ _)
      · exact ih (fun x hx => h x (List.mem_cons_of_mem _ hx)) p hp'

/-- Bumping a key raises its stored count by one. -/
theorem lookupCount_bump_self (k : String) (m : List (String × Nat)) :
    lookupCount (bump k m) k = lookupCount m k + 1 := by
  induction m with
  | nil => simp [bump, lookupCount]
  | cons q rest ih =>
    obtain ⟨k', v⟩ := q
    simp only [bump]
    by_cases hk : k' = k
    · rw [if_pos hk]
      simp [lookupCount, hk]
    · rw [if_neg hk]
      simp [lookupCount, hk, ih]

/-- Bumping a key leaves every other key's count unchanged. -/
theorem lookupCount_bump_ne (k x : String) (h : x ≠ k) (m : List (String × Nat)) :
    lookupCount (bump k m) x = lookupCount m x := by
  induction m with
  | nil =>
    simp only [bump, lookupCount]
    rw [if_neg (fun hkx => h hkx.symm)]
  | cons q rest ih =>
    obtain ⟨k', v⟩ := q
    simp only [bump]
    by_cases hk : k' = k
    · rw [if_pos hk]
      have hx : ¬ k' = x := fun he => h (he.symm.trans hk)
      simp only [lookupCount]
      rw [if_neg hx, if_neg hx]
    · rw [if_neg hk]
      simp only [lookupCount, ih]

/-- Running the daily loop: each key's stored count grows by the number
of processed completed tasks whose creation date has that key. -/
theorem lookupCount_foldl_dailyStep (l : List TaskRecord) (acc : List (String × Nat))
    (k : String) :
    lookupCount (l.foldl dailyStep acc) k =
      lookupCount acc k + l.countP (fun t => t.createdAt.any (fun d => dateKey d == k)) := by
  induction l generalizing acc with
  | nil => simp
  | cons t ts ih =>
    rw [List.foldl_cons, ih, List.countP_cons]
    cases hc : t.createdAt with
    | none =>
      simp [dailyStep, hc, Option.any]
    | some d =>
      simp only [dailyStep, hc]
      by_cases hk : dateKey d = k
      · subst hk
        rw [lookupCount_bump_self]
        simp [Option.any]
        omega
      · rw [lookupCount_bump_ne _ _ (fun he => hk he.symm)]
        simp [Option.any, hk]

/-- The daily loop keeps the dict's keys distinct. -/
theorem keys_nodup_foldl (l : List TaskRecord) (acc : List (String × Nat))
    (h : (acc.map Prod.fst).Nodup) :
    ((l.foldl dailyStep acc).map Prod.fst).Nodup := by
  induction l generalizing acc with
  | nil => exact h
  | cons t ts ih =>
    rw [List.foldl_cons]
    apply ih
    cases hc : t.createdAt with
    | none => simpa [dailyStep, hc] using h
    | some d =>
      simp only [dailyStep, hc]
      exact keys_nodup_bump _ _ h

/-- The daily loop keeps all stored counts at least 1. -/
theorem values_pos_foldl (l : List TaskRecord) (acc : List (String × Nat))
    (h : ∀ p ∈ acc, 1 ≤ p.2) :
    ∀ p ∈ l.foldl dailyStep acc, 1 ≤ p.2 := by
  induction l generalizing acc with
  | nil => exact h
  | cons t ts ih =>
    rw [List.foldl_cons]
    apply ih
    cases hc : t.createdAt with
    | none => simpa [dailyStep, hc] using h
    | some d =>
      simp only [dailyStep, hc]
      exact values_pos_bump _ _ h

/-- Bumping raises the dict's total count by one. -/
theorem sum_bump (k : String) (m : List (String × Nat)) :
    ((bump k m).map Prod.snd).sum = (m.map Prod.snd).sum + 1 := by
  induction m with
  | nil => simp [bump]
  | cons q rest ih =>
    obtain ⟨k', v⟩ := q
    simp only [bump]
    by_cases hk : k' = k
    · rw [if_pos hk]
      simp only [List.map_cons, List.sum_cons]
      omega
    · rw [if_neg hk]
      simp only [List.map_cons, List.sum_cons, ih]
      omega

/-- The dict's total count after the daily loop is the number of
processed tasks that carried a creation timestamp. -/
theorem sum_foldl_dailyStep (l : List TaskRecord) (acc : List (String × Nat)) :
    ((l.foldl dailyStep acc).map Prod.snd).sum =
      (acc.map Prod.snd).sum + l.countP (fun t => t.createdAt.isSome) := by
  induction l generalizing acc with
  | nil => simp
  | cons t ts ih =>
    rw [List.foldl_cons, ih, List.countP_cons]
    cases hc : t.createdAt with
    | none => simp [dailyStep, hc]
    | some d =>
      simp only [dailyStep, hc]
      rw [sum_bump]
      simp
      omega

/-- A stored pair of a distinct-keyed dict is what lookup finds. -/
theorem lookupCount_eq_of_mem (m : List (String × Nat))
    (hnd : (m.map Prod.fst).Nodup) (p : String × Nat) (hp : p ∈ m) :
    lookupCount m p.1 = p.2 := by
  induction m with
  | nil => cases hp
  | cons q rest ih =>
    obtain ⟨k', v⟩ := q
    simp only [List.map_cons, List.nodup_cons] at hnd
    rcases List.mem_cons.mp hp with rfl | hp'
    · simp [lookupCount]
    · simp only [lookupCount]
      by_cases hk : k' = p.1
      · exact absurd (hk ▸ List.mem_map_of_mem Prod.fst hp') hnd.1
      · rw [if_neg hk]
        exact ih hnd.2 hp'

/-- Conjoining a second test can only lower a count. -/
theorem countP_and_le {α : Type} (p q : α → Bool) (l : List α) :
    (l.countP fun t => p t && q t) ≤ l.countP p := by
  induction l with
  | nil => simp
  | cons t ts ih =>
    simp only [List.countP_cons]
    by_cases hp : p t = true <;> by_cases hq : q t = true <;>
      simp [hp, hq] <;> omega

/-- The conjoined count reaches the plain count exactly when the second
test holds on every element passing the first. -/
theorem countP_and_eq_iff {α : Type} (p q : α → Bool) (l : List α) :
    (l.countP fun t => p t && q t) = l.countP p ↔
      ∀ t ∈ l, p t = true → q t = true := by
  induction l with
  | nil => simp
  | cons t ts ih =>
    have hle := countP_and_le p q ts
    simp only [List.countP_cons, List.mem_cons]
    by_cases hp : p t = true
    · by_cases hq : q t = true
      · simp only [hp, hq, Bool.and_self, if_true]
        constructor
        · intro heq x hx hpx
          rcases hx with rfl | hx'
          · exact hq
          · exact ih.mp (by omega) x hx' hpx
        · intro hall
          have := ih.mpr (fun x hx hpx => hall x (Or.inr hx) hpx)
          omega
      · simp only [hp, hq, Bool.and_false, Bool.false_eq_true, if_false, if_true]
        refine iff_of_false (fun heq => ?_) (fun hall => ?_)
        · omega
        · exact hq (hall t (Or.inl rfl) hp)
    · simp only [hp, Bool.false_and, Bool.false_eq_true, if_false]
      constructor
      · intro heq x hx hpx
        rcases hx with rfl | hx'
        · exact absurd hpx hp
        · exact ih.mp heq x hx' hpx
      · intro hall
        exact ih.mpr (fun x hx => hall x (Or.inr hx))

/-- C4: the daily completion trend is strictly ascending by date string,
every entry's count is at least 1 (no zero-count dates, no zero-filled
gaps), and each entry's count is the number of completed records of the
input whose creation date has that entry's date key. -/
theorem trend_spec (u : String) (days : ℤ) (now : DateTime) (tasks : List TaskRecord) :
    ((get_productivity_analysis u days now tasks).daily_completion_trend.Pairwise
      (fun p q => p.1 < q.1)) ∧
    (∀ p ∈ (get_productivity_analysis u days now tasks).daily_completion_trend, 1 ≤ p.2) ∧
    (∀ p ∈ (get_productivity_analysis u days now tasks).daily_completion_trend,
      p.2 = tasks.countP (fun t =>
        (t.status == some "Completed") && t.createdAt.any (fun d => dateKey d == p.1))) := by
  have htrend : (get_productivity_analysis u days now tasks).daily_completion_trend =
      sortPairs ((tasks.filter (fun t => t.status == some "Completed")).foldl dailyStep []) :=
    rfl
  have hnd : (((tasks.filter (fun t => t.status == some "Completed")).foldl
      dailyStep []).map Prod.fst).Nodup :=
    keys_nodup_foldl _ [] (by simp)
  have hperm := sortPairs_perm
    ((tasks.filter (fun t => t.status == some "Completed")).foldl dailyStep [])
  have hnds : ((sortPairs ((tasks.filter (fun t => t.status == some "Completed")).foldl
      dailyStep [])).map Prod.fst).Nodup :=
    (hperm.map Prod.fst).nodup_iff.mpr hnd
  refine ⟨?_, ?_, ?_⟩
  · rw [htrend]
    have hle := sortPairs_pairwise_le
      ((tasks.filter (fun t => t.status == some "Completed")).foldl dailyStep [])
    have hne : (sortPairs ((tasks.filter (fun t => t.status == some "Completed")).foldl
        dailyStep [])).Pairwise (fun a b => a.1 ≠ b.1) :=
      List.pairwise_map.mp hnds
    exact (hle.and hne).imp (fun h => lt_of_le_of_ne h.1 h.2)
  · rw [htrend]
    intro p hp
    exact values_pos_foldl _ [] (by simp) p (hperm.mem_iff.mp hp)
  · rw [htrend]
    intro p hp
    have hpdc : p ∈ (tasks.filter (fun t => t.status == some "Completed")).foldl
        dailyStep [] :=
      hperm.mem_iff.mp hp
    have hval := lookupCount_eq_of_mem _ hnd p hpdc
    rw [← hval, lookupCount_foldl_dailyStep]
    simp only [lookupCount, Nat.zero_add]
    rw [List.countP_filter]
    congr 1
    funext t
    exact Bool.and_comm _ _

/-- C4 witness: three records, two completed on the same calendar day,
give the one-entry trend with count 2. -/
theorem trend_spec_witness :
    ((("2024-01-02", 2) : String × Nat) ∈
      (get_productivity_analysis "u" 7 ⟨2024, 1, 9, 0⟩
        [⟨some "Completed", none, some ⟨2024, 1, 2, 0⟩, none⟩,
         ⟨some "Completed", none, some ⟨2024, 1, 2, 5⟩, none⟩,
         ⟨some "Todo", none, some ⟨2024, 1, 2, 0⟩, none⟩]).daily_completion_trend) ∧
    1 ≤ (("2024-01-02", 2) : String × Nat).2 ∧
    (("2024-01-02", 2) : String × Nat).2 =
      [⟨some "Completed", none, some ⟨2024, 1, 2, 0⟩, none⟩,
       ⟨some "Completed", none, some ⟨2024, 1, 2, 5⟩, none⟩,
       (⟨some "Todo", none, some ⟨2024, 1, 2, 0⟩, none⟩ : TaskRecord)].countP (fun t =>
        (t.status == some "Completed") &&
          t.createdAt.any (fun d => dateKey d == (("2024-01-02", 2) : String × Nat).1)) :=
  ⟨by decide,
   (trend_spec "u" 7 ⟨2024, 1, 9, 0⟩
     [⟨some "Completed", none, some ⟨2024, 1, 2, 0⟩, none⟩,
      ⟨some "Completed", none, some ⟨2024, 1, 2, 5⟩, none⟩,
      ⟨some "Todo", none, some ⟨2024, 1, 2, 0⟩, none⟩]).2.1 _ (by decide),
   (trend_spec "u" 7 ⟨2024, 1, 9, 0⟩
     [⟨some "Completed", none, some ⟨2024, 1, 2, 0⟩, none⟩,
      ⟨some "Completed", none, some ⟨2024, 1, 2, 5⟩, none⟩,
      ⟨some "Todo", none, some ⟨2024, 1, 2, 0⟩, none⟩]).2.2 _ (by decide)⟩

/-- C10: the trend's counts sum to the number of completed records that
carry a creation timestamp; hence the sum is at most
`total_tasks_completed`, with equality exactly when every completed
record of the input has its creation timestamp set — a completed record
without one is counted in the total but omitted from the trend. -/
theorem trend_sum_spec (u : String) (days : ℤ) (now : DateTime) (tasks : List TaskRecord) :
    (((get_productivity_analysis u days now tasks).daily_completion_trend.map
        Prod.snd).sum =
      tasks.countP (fun t => (t.status == some "Completed") && t.createdAt.isSome)) ∧
    (((get_productivity_analysis u days now tasks).daily_completion_trend.map
        Prod.snd).sum ≤
      (get_productivity_analysis u days now tasks).total_tasks_completed) ∧
    ((((get_productivity_analysis u days now tasks).daily_completion_trend.map
        Prod.snd).sum =
        (get_productivity_analysis u days now tasks).total_tasks_completed) ↔
      (∀ t ∈ tasks, t.status = some "Completed" → t.createdAt ≠ none)) := by
  have htrend : (get_productivity_analysis u days now tasks).daily_completion_trend =
      sortPairs ((tasks.filter (fun t => t.status == some "Completed")).foldl dailyStep []) :=
    rfl
  have htot : (get_productivity_analysis u days now tasks).total_tasks_completed =
      tasks.countP (fun t => t.status == some "Completed") := by
    show (tasks.filter (fun t => t.status == some "Completed")).length = _
    exact (List.countP_eq_length_filter _ _).symm
  have hsum : ((get_productivity_analysis u days now tasks).daily_completion_trend.map
      Prod.snd).sum =
      tasks.countP (fun t => (t.status == some "Completed") && t.createdAt.isSome) := by
    rw [htrend]
    have hperm := (sortPairs_perm
      ((tasks.filter (fun t => t.status == some "Completed")).foldl dailyStep [])).map
        Prod.snd
    rw [hperm.sum_eq, sum_foldl_dailyStep]
    simp only [List.map_nil, List.sum_nil, Nat.zero_add]
    rw [List.countP_filter]
    congr 1
    funext t
    exact Bool.and_comm _ _
  refine ⟨hsum, ?_, ?_⟩
  · rw [hsum, htot]
    exact countP_and_le _ _ tasks
  · rw [hsum, htot, countP_and_eq_iff]
    constructor
    · intro h t ht hst
      exact Option.ne_none_iff_isSome.mpr (h t ht (by simp [hst]))
    · intro h t ht hst
      exact Option.ne_none_iff_isSome.mp (h t ht (by simpa using hst))

/-- C10 witness: with every completed record carrying a creation
timestamp, the trend counts sum to exactly the completed total. -/
theorem trend_sum_spec_witness :
    ((get_productivity_analysis "u" 7 ⟨2024, 1, 9, 0⟩
        [⟨some "Completed", none, some ⟨2024, 1, 3, 0⟩, none⟩,
         ⟨some "Todo", none, none, none⟩]).daily_completion_trend.map Prod.snd).sum =
      (get_productivity_analysis "u" 7 ⟨2024, 1, 9, 0⟩
        [⟨some "Completed", none, some ⟨2024, 1, 3, 0⟩, none⟩,
         ⟨some "Todo", none, none, none⟩]).total_tasks_completed :=
  (trend_sum_spec "u" 7 ⟨2024, 1, 9, 0⟩
      [⟨some "Completed", none, some ⟨2024, 1, 3, 0⟩, none⟩,
       ⟨some "Todo", none, none, none⟩]).2.2.mpr (by decide)
